import Mathlib

/-!
Shallow embedding of the core of the `Grozard/JoJo` repository
(file `BRUH.py`, the larger variant of the GitHub welcome app):
the retrying transport `make_request` with its `retry` decorator and
pagination, the rate-limit bookkeeping (`_handle_rate_limit`,
`_check_rate_limit`), the read-through cache `_get_cached_or_fetch`,
the memoized `get_user_info`, the repository scorer
`_calculate_repo_score` / `find_best_repo`, and the activity
aggregator `analyze_activity` — together with theorems settling the
specification claims about them.
-/

namespace JoJo

/-- JSON values as far as the transport's control flow inspects them.
The code only tests `isinstance(response.json(), list)` and concatenates
lists, so a value is either a list of opaque items or an opaque
(non-empty) JSON object. -/
inductive Json where
  | list : List Nat → Json
  | obj : Nat → Json
deriving DecidableEq, Repr

/-- Python truthiness of a JSON value (`if next_page:`); `obj` stands for
a non-empty JSON object and is therefore truthy. -/
def jsonTruthy : Json → Bool
  | .list l => !l.isEmpty
  | .obj _ => true

/-- Python truthiness of an `Optional` JSON value: `None` is falsy. -/
def optTruthy : Option Json → Bool
  | none => false
  | some j => jsonTruthy j

/-- Rate-limit headers of one response (`X-RateLimit-Remaining`,
`X-RateLimit-Reset`, `X-RateLimit-Limit`, `X-RateLimit-Used`); `none`
models an absent header. -/
structure RLHeaders where
  remaining : Option Int := none
  reset : Option ℚ := none
  limit : Option Int := none
  used : Option Int := none
deriving DecidableEq

/-- The dataclass `RateLimitInfo` (BRUH.py lines 45-51), with its field
defaults. -/
structure RateLimitInfo where
  remaining : Int := 5000
  reset : ℚ := 0
  used : Int := 0
  limit : Int := 5000
deriving DecidableEq

/-- `GitHubAPI._handle_rate_limit` (BRUH.py lines 73-82): every header
that is present overwrites the corresponding field, absent headers leave
it unchanged. -/
def handle_rate_limit (rl : RateLimitInfo) (h : RLHeaders) : RateLimitInfo :=
  { remaining := h.remaining.getD rl.remaining
    reset := h.reset.getD rl.reset
    used := h.used.getD rl.used
    limit := h.limit.getD rl.limit }

/-- Outcome of one `session.get` call: the call may raise a timeout or a
connection error, or produce a response with a status code, a body whose
text may contain "rate limit", a parsed JSON value, an optional
`rel="next"` link and rate-limit headers. -/
inductive NetEvent where
  | timeout
  | connError
  | resp (status : Nat) (bodyHasRateLimit : Bool) (body : Json)
      (nextLink : Option String) (headers : RLHeaders)

/-- State threaded through `make_request`: the network is an oracle
giving the outcome of the n-th `session.get`, `calls` counts the
requests made so far, and `rateLimit` is `self.rate_limit`.  The various
sleeps (`_check_rate_limit`, the 403 wait, the retry backoff) only delay
the program and never change control flow or data, so they are not
recorded here; `_check_rate_limit` itself is embedded separately below
as `check_rate_limit`. -/
structure ApiState where
  oracle : Nat → NetEvent
  calls : Nat
  rateLimit : RateLimitInfo

/-- Result of one run of the undecorated `make_request` body: `ok v` is
a normal return (`v = none` being Python's `None`), `error ()` is an
exception escaping the body's `except` clauses (only the `TypeError`
raised by `list + non-list` in the pagination branch can do so —
`Timeout`, `ConnectionError`, `HTTPError`, `RequestException` and
`ValueError` are all caught inside the body). -/
abbrev MrResult := Except Unit (Option Json)

/-- Body of `GitHubAPI.make_request` (BRUH.py lines 101-151) without the
`@retry` decorator.  `rec` is the recursive call to the decorated
`self.make_request` (the 403 rate-limit resend at line 122 and the
pagination follow-up at line 131).  A result of `none` means the
recursion inside did not terminate within the caller's bound. -/
def make_request_body (rec : ApiState → Option (MrResult × ApiState))
    (s : ApiState) : Option (MrResult × ApiState) :=
  match s.oracle s.calls with
  | .timeout => some (.ok none, { s with calls := s.calls + 1 })
  | .connError => some (.ok none, { s with calls := s.calls + 1 })
  | .resp status rlBody body nextLink headers =>
    let s2 : ApiState :=
      { s with calls := s.calls + 1
               rateLimit := handle_rate_limit s.rateLimit headers }
    if status = 404 then some (.ok none, s2)
    else if status = 403 then
      (if rlBody then rec s2 else some (.ok none, s2))
    else if 400 ≤ status then some (.ok none, s2)
    else
      match nextLink, body with
      | some _, .list items =>
        (match rec s2 with
         | none => none
         | some (.error e, s3) => some (.error e, s3)
         | some (.ok nextPage, s3) =>
           if optTruthy nextPage then
             (match nextPage with
              | some (.list items2) =>
                some (.ok (some (.list (items ++ items2))), s3)
              | _ => some (.error (), s3))
           else some (.ok (some body), s3))
      | _, _ => some (.ok (some body), s2)

/-- The loop of the `retry` decorator (BRUH.py lines 20-42) applied to a
fallible body: with `n` attempts remaining, a body that returns normally
ends the loop at once; a body that raises is re-run until the attempt
budget (`max_retries = 3`) is exhausted, after which the exception is
re-raised.  The backoff sleeps between attempts only delay. -/
def retry_go (f : ApiState → Option (MrResult × ApiState)) :
    Nat → ApiState → Option (MrResult × ApiState)
  | 0, s => some (.ok none, s)
  | n + 1, s =>
    match f s with
    | none => none
    | some (.ok v, s1) => some (.ok v, s1)
    | some (.error e, s1) =>
      if n = 0 then some (.error e, s1) else retry_go f n s1

/-- The decorated `make_request = retry(max_retries=3, ...)(body)`.
`fuel` bounds the depth of nested decorated calls — the Python recursion
is unbounded — and `none` means that bound was exceeded. -/
def make_request : Nat → ApiState → Option (MrResult × ApiState)
  | 0, _ => none
  | fuel + 1, s => retry_go (make_request_body (make_request fuel)) 3 s

/-- A fresh `GitHubAPI` (`__init__`, BRUH.py lines 63-71) paired with a
network oracle. -/
def apiInit (o : Nat → NetEvent) : ApiState :=
  { oracle := o, calls := 0, rateLimit := {} }

/-- Network oracle for claim C1: the first two `session.get` calls time
out, every later one succeeds with a JSON object. -/
def oC1 : Nat → NetEvent
  | 0 => .timeout
  | 1 => .timeout
  | _ => .resp 200 false (.obj 7) none {}

/-- C1: the spec says two timeouts followed by a success yield Success
after exactly 2 retries via the `@retry(max_retries=3)` decorator.  In
the code every `requests` exception is caught inside `make_request`
itself and turned into `return None`, so no exception ever reaches the
decorator: on the first timeout the decorated call returns `None` having
made exactly one network request and zero retries. -/
theorem make_request_swallows_timeout_no_retry :
    (make_request 10 (apiInit oC1)).map (fun p => (p.1, p.2.calls)) =
      some (Except.ok none, 1) := rfl

/-- Does this network outcome make `make_request` call itself again?
Either a 403 whose body mentions the rate limit (line 122) or a
successful list response carrying a `next` link (line 131). -/
def triggersRecursion : NetEvent → Bool
  | .timeout => false
  | .connError => false
  | .resp status rlBody body nextLink _ =>
    if status = 404 then false
    else if status = 403 then rlBody
    else if 400 ≤ status then false
    else
      match nextLink, body with
      | some _, .list _ => true
      | _, _ => false

/-- `make_request` started in state `s` exhausts every recursion bound:
the Python original never returns from this state. -/
def neverReturns (s : ApiState) : Prop :=
  ∀ fuel, make_request fuel s = none

theorem retry_go_of_none {f : ApiState → Option (MrResult × ApiState)}
    {s : ApiState} (n : Nat) (h : f s = none) :
    retry_go f (n + 1) s = none := by
  unfold retry_go
  rw [h]

theorem retry_go_of_ok {f : ApiState → Option (MrResult × ApiState)}
    {s s1 : ApiState} {v : Option Json} (n : Nat)
    (h : f s = some (.ok v, s1)) :
    retry_go f (n + 1) s = some (.ok v, s1) := by
  unfold retry_go
  rw [h]

/-- If every answer the server gives sends `make_request` into another
recursive call, the function never returns. -/
theorem make_request_diverges_of_always_recursing :
    ∀ (fuel : Nat) (s : ApiState),
      (∀ n, triggersRecursion (s.oracle n) = true) →
      make_request fuel s = none := by
  intro fuel
  induction fuel with
  | zero => intro s _; rfl
  | succ fuel ih =>
    intro s h
    have htr := h s.calls
    have hbody : make_request_body (make_request fuel) s = none := by
      unfold make_request_body
      cases hev : s.oracle s.calls with
      | timeout => rw [hev] at htr; simp [triggersRecursion] at htr
      | connError => rw [hev] at htr; simp [triggersRecursion] at htr
      | resp status rlBody body nextLink headers =>
        rw [hev] at htr
        simp only [triggersRecursion] at htr
        by_cases h404 : status = 404
        · simp [h404] at htr
        · rw [if_neg h404] at htr
          simp only [if_neg h404]
          by_cases h403 : status = 403
          · rw [if_pos h403] at htr
            simp only [if_pos h403, htr, if_pos rfl]
            exact ih _ h
          · rw [if_neg h403] at htr
            simp only [if_neg h403]
            by_cases h400 : 400 ≤ status
            · simp [h400] at htr
            · rw [if_neg h400] at htr
              simp only [if_neg h400]
              cases nextLink with
              | none => simp at htr
              | some ptr =>
                cases body with
                | obj k => simp at htr
                | list items =>
                  have hrec :=
                    ih ⟨s.oracle, s.calls + 1, handle_rate_limit s.rateLimit headers⟩ h
                  simp only [hrec]
    unfold make_request
    exact retry_go_of_none 2 hbody

/-- Oracle for claim C2: the server answers every request with HTTP 403
whose body mentions the rate limit. -/
def oC2 : Nat → NetEvent
  | _ => .resp 403 true (.obj 0) none {}

/-- C2: on a 403 rate-limit response `make_request` sleeps until
`reset + 1` and then resends by calling itself (line 122) with no depth
counter or cap of any kind; against a server that keeps answering 403
rate-limit, the call recurses without bound and never returns —
contradicting the claimed hard cap on forced resends. -/
theorem make_request_403_resend_unbounded : neverReturns (apiInit oC2) :=
  fun fuel =>
    make_request_diverges_of_always_recursing fuel (apiInit oC2)
      (fun _ => rfl)

/-- Oracle for claim C4's cycle: every request is answered with the same
list page pointing at the same continuation pointer "A". -/
def oC4cycle : Nat → NetEvent
  | _ => .resp 200 false (.list [1]) (some "A") {}

/-- Oracle for a well-behaved 3-page chain: two items per page, the last
page without a `next` link. -/
def oC4pages : Nat → NetEvent
  | 0 => .resp 200 false (.list [1, 2]) (some "p2") {}
  | 1 => .resp 200 false (.list [3, 4]) (some "p3") {}
  | _ => .resp 200 false (.list [5, 6]) none {}

/-- C4 counterexample: the pagination branch (lines 129-135) keeps no
record of visited continuation pointers, so a server that serves the
pointer "A" forever is followed forever — the fetch never returns,
instead of failing fast with a Fatal outcome at the first repeated
pointer as the claim states. -/
theorem pagination_cycle_never_fatal : neverReturns (apiInit oC4cycle) :=
  fun fuel =>
    make_request_diverges_of_always_recursing fuel (apiInit oC4cycle)
      (fun _ => rfl)

/-- C4 amended: `make_request` follows every `next` pointer with no
repeat check at all.  A terminating 3-page chain is assembled in full
(6 items in page order after exactly 3 requests), while a chain that
serves the same pointer "A" forever is followed unboundedly — the fetch
never returns, rather than producing a Fatal outcome. -/
theorem pagination_follows_blindly :
    (make_request 10 (apiInit oC4pages)).map (fun p => (p.1, p.2.calls)) =
      some (Except.ok (some (Json.list [1, 2, 3, 4, 5, 6])), 3) ∧
    neverReturns (apiInit oC4cycle) :=
  ⟨rfl, fun fuel =>
    make_request_diverges_of_always_recursing fuel (apiInit oC4cycle)
      (fun _ => rfl)⟩

/-- Oracle for claim C5: the first page is a list with a `next` link and
the request for the second page answers 404. -/
def oC5 : Nat → NetEvent
  | 0 => .resp 200 false (.list [1, 2]) (some "p2") {}
  | _ => .resp 404 false (.obj 0) none {}

/-- C5 counterexample: the inner page request returns NotFound (`None`),
`if next_page:` at line 132 is then false and line 135 returns the
current page alone — the caller receives the partial concatenation
`[1, 2]` instead of the inner NotFound/Fatal outcome the claim
requires. -/
theorem inner_page_failure_returns_partial :
    (make_request 10 (apiInit oC5)).map (fun p => (p.1, p.2.calls)) =
      some (Except.ok (some (Json.list [1, 2])), 2) := rfl

/-- C5 amended: whenever the current response is a successful list page
with a `next` link and the recursive fetch of the remaining pages comes
back falsy — `None` after a NotFound or a swallowed failure, or an empty
list — `make_request` returns the items accumulated at this level
instead of propagating the failure; partial results are delivered, not
discarded. -/
theorem inner_page_failure_swallowed (s s3 : ApiState) (fuel : Nat)
    (items : List Nat) (ptr : String) (hd : RLHeaders) (inner : Option Json)
    (hev : s.oracle s.calls = .resp 200 false (.list items) (some ptr) hd)
    (hinner : make_request fuel
        { s with calls := s.calls + 1
                 rateLimit := handle_rate_limit s.rateLimit hd } =
      some (.ok inner, s3))
    (hfalsy : optTruthy inner = false) :
    make_request (fuel + 1) s = some (.ok (some (.list items)), s3) := by
  have hbody : make_request_body (make_request fuel) s =
      some (.ok (some (.list items)), s3) := by
    unfold make_request_body
    rw [hev]
    simp [hinner, hfalsy]
  unfold make_request
  exact retry_go_of_ok 2 hbody

/-- Witness for the amended C5 statement at the concrete oracle `oC5`. -/
theorem inner_page_failure_swallowed_witness :
    make_request 10 (apiInit oC5) =
      some (.ok (some (.list [1, 2])),
        { oracle := oC5, calls := 2, rateLimit := {} }) :=
  inner_page_failure_swallowed (apiInit oC5)
    { oracle := oC5, calls := 2, rateLimit := {} } 9 [1, 2] "p2" {} none
    rfl rfl rfl

/-- The two pauses computed by `GitHubAPI._check_rate_limit` (BRUH.py
lines 84-98): the minimum-interval pause and the rate-limit pause.  Time
values are the `time.time()` epoch clock in seconds; `now` is the
`current_time` captured at the top of the method. -/
structure WaitTimes where
  intervalWait : ℚ
  rateLimitWait : ℚ
deriving DecidableEq

/-- `GitHubAPI._check_rate_limit` as a pure computation of how long each
of its two `time.sleep` calls lasts (the method has no other effect). -/
def check_rate_limit (now lastRequestTime minRequestInterval : ℚ)
    (rl : RateLimitInfo) : WaitTimes :=
  let timeSinceLast := now - lastRequestTime
  { intervalWait :=
      if timeSinceLast < minRequestInterval then
        minRequestInterval - timeSinceLast
      else 0
    rateLimitWait :=
      if rl.remaining ≤ 5 then
        (let waitTime := max (rl.reset - now) 0 + 1
         if 0 < waitTime then waitTime else 0)
      else 0 }

/-- C3 counterexample: with `remaining = 3` and a reset 100 seconds in
the past, `_check_rate_limit` still sleeps `max(reset - now, 0) + 1 = 1`
second — contradicting both "no rate-limit block when the reset is in
the past" and the claimed bound of `(reset - now) + 1 = -99` seconds. -/
theorem rate_limit_blocks_on_past_reset :
    (check_rate_limit 100 0 (1/10) { remaining := 3, reset := 0 }).rateLimitWait
        = 1 ∧
    ¬ ((check_rate_limit 100 0 (1/10)
          { remaining := 3, reset := 0 }).rateLimitWait ≤ (0 - 100 : ℚ) + 1) := by
  constructor <;> norm_num [check_rate_limit]

/-- C3 amended: whenever `remaining ≤ 5`, the rate-limit sleep is exactly
`max(reset - now, 0) + 1` seconds: the caller is blocked until
`reset + 1` when the reset is still ahead of `now`, and for exactly one
second — never zero — when the reset is already past. -/
theorem rate_limit_wait_formula (now lastReq minInt : ℚ)
    (rl : RateLimitInfo) (h : rl.remaining ≤ 5) :
    (check_rate_limit now lastReq minInt rl).rateLimitWait
        = max (rl.reset - now) 0 + 1 ∧
    (now ≤ rl.reset →
      now + (check_rate_limit now lastReq minInt rl).rateLimitWait
        = rl.reset + 1) ∧
    (rl.reset < now →
      (check_rate_limit now lastReq minInt rl).rateLimitWait = 1) := by
  have h0 : (0 : ℚ) ≤ max (rl.reset - now) 0 := le_max_right _ _
  have hw : (0 : ℚ) < max (rl.reset - now) 0 + 1 := by linarith
  have hval : (check_rate_limit now lastReq minInt rl).rateLimitWait
      = max (rl.reset - now) 0 + 1 := by
    simp only [check_rate_limit, if_pos h, if_pos hw]
  refine ⟨hval, fun hle => ?_, fun hlt => ?_⟩
  · rw [hval, max_eq_left (by linarith : (0:ℚ) ≤ rl.reset - now)]
    ring
  · rw [hval, max_eq_right (by linarith : rl.reset - now ≤ (0:ℚ))]
    norm_num

/-- Witness for the amended C3 statement at a concrete state:
`remaining = 3`, reset 10 seconds ahead of `now = 10`. -/
theorem rate_limit_wait_formula_witness :
    (check_rate_limit 10 0 (1/10) { remaining := 3, reset := 20 }).rateLimitWait
        = max ((20 : ℚ) - 10) 0 + 1 ∧
    ((10 : ℚ) ≤ 20 →
      10 + (check_rate_limit 10 0 (1/10)
        { remaining := 3, reset := 20 }).rateLimitWait = 20 + 1) ∧
    ((20 : ℚ) < 10 →
      (check_rate_limit 10 0 (1/10)
        { remaining := 3, reset := 20 }).rateLimitWait = 1) :=
  rate_limit_wait_formula 10 0 (1/10) { remaining := 3, reset := 20 }
    (by norm_num)

/-- `GitHubUserProcessor._get_cached_or_fetch` (BRUH.py lines 183-191)
over an association-list cache.  `fetchResult` is what `fetch_func()`
returns when invoked; the final Bool reports whether it was invoked.
Only non-`None` results are stored. -/
def get_cached_or_fetch (cache : List (String × Json)) (key : String)
    (fetchResult : Option Json) :
    Option Json × List (String × Json) × Bool :=
  match cache.lookup key with
  | some v => (some v, cache, false)
  | none =>
    match fetchResult with
    | some v => (some v, (key, v) :: cache, true)
    | none => (none, cache, true)

/-- C6: calling `_get_cached_or_fetch` twice with the same key invokes
the fetch function at most once when the first call produces a present
value — the second call is served from the cache with the same value and
no invocation — while a `None` first result stores nothing, leaves the
cache unchanged, and makes the second call invoke the fetch function
again. -/
theorem get_cached_or_fetch_memoizes (cache : List (String × Json))
    (key : String) (r1 r2 : Option Json) :
    (∀ v, (get_cached_or_fetch cache key r1).1 = some v →
      (get_cached_or_fetch (get_cached_or_fetch cache key r1).2.1 key r2).1
          = some v ∧
      (get_cached_or_fetch (get_cached_or_fetch cache key r1).2.1 key r2).2.2
          = false) ∧
    ((get_cached_or_fetch cache key r1).1 = none →
      (get_cached_or_fetch cache key r1).2.1 = cache ∧
      (get_cached_or_fetch cache key r1).2.2 = true ∧
      (get_cached_or_fetch cache key r2).1 = r2 ∧
      (get_cached_or_fetch cache key r2).2.2 = true) := by
  cases hl : cache.lookup key with
  | some v => simp [get_cached_or_fetch, hl]
  | none =>
    cases r1 with
    | none =>
      cases r2 <;> simp [get_cached_or_fetch, hl]
    | some v1 =>
      simp [get_cached_or_fetch, hl, List.lookup]

/-- Witness for C6 at a concrete cache: both the present-value branch and
the `None` branch, instantiated and applied. -/
theorem get_cached_or_fetch_memoizes_witness :
    ((get_cached_or_fetch
        (get_cached_or_fetch [] "k" (some (Json.obj 1))).2.1 "k" none).1
      = some (Json.obj 1)) ∧
    ((get_cached_or_fetch [] "k" none).2.1 = [] ∧
     (get_cached_or_fetch [] "k" (some (Json.obj 2))).1 = some (Json.obj 2)) :=
  ⟨((get_cached_or_fetch_memoizes [] "k" (some (Json.obj 1)) none).1
      (Json.obj 1) rfl).1,
   ((get_cached_or_fetch_memoizes [] "k" none (some (Json.obj 2))).2 rfl).1,
   ((get_cached_or_fetch_memoizes [] "k" none (some (Json.obj 2))).2 rfl).2.2.1⟩

/-- A Python exception relevant to the scorer: `KeyError` on a plain
dictionary subscript. -/
inductive PyErr where
  | keyError (key : String)
deriving DecidableEq

deriving instance DecidableEq for Except

/-- Python's `str.lower()` (an external library function), character by
character. -/
def pyLower (s : String) : String := ⟨s.data.map Char.toLower⟩

/-- A repository item as the scorer reads it: every field is optional
because the input is a loosely-typed JSON object.  `readme` is the value
`repo.get('readme', False)` would find (modelled as its truthiness) and
`description` is the raw string. -/
structure Repo where
  name : Option String := none
  has_wiki : Option Bool := none
  readme : Option Bool := none
  description : Option String := none
  pushed_at : Option String := none
  stargazers_count : Option Int := none
  forks_count : Option Int := none
  size : Option Int := none
deriving DecidableEq, Repr

/-- Description bonus (line 270-271): `repo.get('description')` is
truthy iff present and non-empty. -/
def description_bonus (repo : Repo) : Int :=
  match repo.description with
  | some d => if d = "" then 0 else 30
  | none => 0

/-- Recency bonus (lines 274-281).  `parseDays`/`nowDays` abstract the
external `datetime` library: `parseDays` is
`datetime.fromisoformat(... .replace('Z', '+00:00'))` returning the push
date on the day timeline (`none` = `ValueError`/`TypeError`, which the
code catches with `pass`), and `nowDays - parseDays s` is
`(datetime.now(tz) - push_date).days`. -/
def recency_bonus (parseDays : String → Option Int) (nowDays : Int)
    (repo : Repo) : Int :=
  match repo.pushed_at with
  | none => 0
  | some s =>
    match parseDays s with
    | none => 0
    | some pushDays =>
      let d := nowDays - pushDays
      if d < 30 then 40 - min d 40 else 0

/-- Star bonus (line 284): `min(repo.get('stargazers_count', 0) * 2, 50)`. -/
def stars_bonus (repo : Repo) : Int :=
  min (repo.stargazers_count.getD 0 * 2) 50

/-- Fork bonus (line 285): `min(repo.get('forks_count', 0), 25)`. -/
def forks_bonus (repo : Repo) : Int :=
  min (repo.forks_count.getD 0) 25

/-- Size bonus (line 288): `min(repo.get('size', 0) // 1000, 20)`;
Python `//` is flooring division, i.e. `Int.fdiv`. -/
def size_bonus (repo : Repo) : Int :=
  min ((repo.size.getD 0).fdiv 1000) 20

/-- `GitHubUserProcessor._calculate_repo_score` (BRUH.py lines 257-290).
`repo['name']` (line 262) and — whenever `repo.get('readme', False)` is
falsy — `repo['has_wiki']` (line 266) are plain subscripts that raise
`KeyError` on an absent key; every other field is read with a default. -/
def calculate_repo_score (parseDays : String → Option Int) (nowDays : Int)
    (repo : Repo) (username : String) : Except PyErr Int :=
  match repo.name with
  | none => .error (.keyError "name")
  | some n =>
    let base : Int := if pyLower n = pyLower username then 100 else 0
    match (if repo.readme.getD false then Except.ok 50
      else
        match repo.has_wiki with
        | none => Except.error (PyErr.keyError "has_wiki")
        | some w => Except.ok (if w then (50 : Int) else 0)) with
    | .error e => .error e
    | .ok wikiBonus =>
      .ok (base + wikiBonus + description_bonus repo
        + recency_bonus parseDays nowDays repo + stars_bonus repo
        + forks_bonus repo + size_bonus repo)

/-- The scored list built by the comprehension at line 297: score each
repository left to right, propagating the first exception raised. -/
def scoreList (parseDays : String → Option Int) (nowDays : Int)
    (username : String) : List Repo → Except PyErr (List (Int × Repo))
  | [] => .ok []
  | r :: rest =>
    match calculate_repo_score parseDays nowDays r username with
    | .error e => .error e
    | .ok sc =>
      match scoreList parseDays nowDays username rest with
      | .error e => .error e
      | .ok tl => .ok ((sc, r) :: tl)

/-- `scored_repos.sort(key=..., reverse=True)` is stable, so
`scored_repos[0]` is the first element attaining the maximal score:
traverse left to right and replace the best only on a strictly greater
score. -/
def pickFirstMax : Int × Repo → List (Int × Repo) → Int × Repo
  | best, [] => best
  | best, p :: rest => pickFirstMax (if best.1 < p.1 then p else best) rest

/-- `GitHubUserProcessor.find_best_repo` (BRUH.py lines 292-300): `None`
on an empty list, otherwise score everything and return the first
repository with the maximal score. -/
def find_best_repo (parseDays : String → Option Int) (nowDays : Int)
    (repos : List Repo) (username : String) : Except PyErr (Option Repo) :=
  match repos with
  | [] => .ok none
  | r0 :: rest =>
    match calculate_repo_score parseDays nowDays r0 username with
    | .error e => .error e
    | .ok s0 =>
      match scoreList parseDays nowDays username rest with
      | .error e => .error e
      | .ok scored => .ok (some (pickFirstMax (s0, r0) scored).2)

/-- Case-insensitive name match against the subject name (line 262). -/
def nameMatches (repo : Repo) (username : String) : Bool :=
  match repo.name with
  | some n => pyLower n == pyLower username
  | none => false

/-- A repository carrying only a name, with the `readme` and `has_wiki`
keys absent. -/
def repoNoWiki : Repo := { name := some "x" }

/-- C7 counterexample: a repository with a name but neither a `readme`
nor a `has_wiki` key makes `_calculate_repo_score` evaluate
`repo['has_wiki']` (line 266) and raise `KeyError`, so `find_best_repo`
raises instead of scoring it — the absent boolean `has_wiki` is not
defaulted to false as the claim states. -/
theorem score_raises_on_missing_has_wiki :
    find_best_repo (fun _ => none) 0 [repoNoWiki] "x"
      = .error (.keyError "has_wiki") := rfl

/-- A concrete stand-in for the ISO-date parser used in counterexamples:
it recognises one date string, placed at day 0. -/
def parseC8 : String → Option Int :=
  fun s => if s = "2024" then some 0 else none

/-- The repository whose name equals the subject name `"JoJo"`
case-insensitively, with nothing else going for it. -/
def repoMatch : Repo := { name := some "jojo", has_wiki := some false }

/-- A rival repository with a different name but a wiki, a description,
a recent push, 25 stars, 25 forks and size 20000. -/
def repoRival : Repo :=
  { name := some "other", has_wiki := some true,
    description := some "tools", pushed_at := some "2024",
    stargazers_count := some 25, forks_count := some 25,
    size := some 20000 }

/-- C8 counterexample: the input contains a repository whose name equals
the subject name case-insensitively, yet `find_best_repo` returns the
rival: the name bonus is only 100 while the rival collects
50 + 30 + 40 + 50 + 25 + 20 = 215 from its wiki, description, recency,
stars, forks and size. -/
theorem find_best_repo_ignores_name_match :
    nameMatches repoMatch "JoJo" = true ∧
    nameMatches repoRival "JoJo" = false ∧
    find_best_repo parseC8 0 [repoMatch, repoRival] "JoJo"
      = .ok (some repoRival) := ⟨by decide, by decide, by decide⟩

theorem calc_eq_of_readme (p : String → Option Int) (now : Int) (r : Repo)
    (u : String) (n : String) (hn : r.name = some n)
    (hrd : r.readme.getD false = true) :
    calculate_repo_score p now r u =
      .ok ((if pyLower n = pyLower u then 100 else 0) + 50
        + description_bonus r + recency_bonus p now r + stars_bonus r
        + forks_bonus r + size_bonus r) := by
  unfold calculate_repo_score
  rw [hn]
  simp [hrd]

theorem calc_eq_of_keys (p : String → Option Int) (now : Int) (r : Repo)
    (u : String) (n : String) (w : Bool) (hn : r.name = some n)
    (hw : r.has_wiki = some w) :
    calculate_repo_score p now r u =
      .ok ((if pyLower n = pyLower u then 100 else 0)
        + (if r.readme.getD false then 50 else if w then 50 else 0)
        + description_bonus r + recency_bonus p now r + stars_bonus r
        + forks_bonus r + size_bonus r) := by
  unfold calculate_repo_score
  rw [hn, hw]
  cases hrd : r.readme.getD false <;> simp [hrd]

theorem calculate_repo_score_ok (p : String → Option Int) (now : Int)
    (r : Repo) (u : String) (hname : r.name.isSome = true)
    (hwiki : r.readme.getD false = true ∨ r.has_wiki.isSome = true) :
    ∃ k, calculate_repo_score p now r u = .ok k := by
  obtain ⟨n, hn⟩ := Option.isSome_iff_exists.mp hname
  rcases hwiki with hrd | hw
  · exact ⟨_, calc_eq_of_readme p now r u n hn hrd⟩
  · obtain ⟨w, hw2⟩ := Option.isSome_iff_exists.mp hw
    exact ⟨_, calc_eq_of_keys p now r u n w hn hw2⟩

theorem description_bonus_nonneg (r : Repo) : 0 ≤ description_bonus r := by
  unfold description_bonus
  cases r.description with
  | none => norm_num
  | some d =>
    simp only
    split <;> norm_num

theorem description_bonus_le (r : Repo) : description_bonus r ≤ 30 := by
  unfold description_bonus
  cases r.description with
  | none => norm_num
  | some d =>
    simp only
    split <;> norm_num

theorem recency_bonus_nonneg (p : String → Option Int) (now : Int)
    (r : Repo) : 0 ≤ recency_bonus p now r := by
  unfold recency_bonus
  cases r.pushed_at with
  | none => norm_num
  | some s =>
    simp only
    cases p s with
    | none => norm_num
    | some pushDays =>
      simp only
      split
      · have := min_le_right (now - pushDays) (40 : Int)
        omega
      · norm_num

theorem recency_bonus_of_no_push (p : String → Option Int) (now : Int)
    (r : Repo) (h : r.pushed_at = none) : recency_bonus p now r = 0 := by
  unfold recency_bonus
  rw [h]

theorem stars_bonus_nonneg (r : Repo)
    (h : 0 ≤ r.stargazers_count.getD 0) : 0 ≤ stars_bonus r :=
  le_min (by linarith) (by norm_num)

theorem forks_bonus_nonneg (r : Repo)
    (h : 0 ≤ r.forks_count.getD 0) : 0 ≤ forks_bonus r :=
  le_min h (by norm_num)

theorem size_bonus_nonneg (r : Repo)
    (h : 0 ≤ r.size.getD 0) : 0 ≤ size_bonus r :=
  le_min (Int.fdiv_nonneg h (by norm_num)) (by norm_num)

theorem score_of_match_ge (p : String → Option Int) (now : Int) (r : Repo)
    (u : String) (hm : nameMatches r u = true)
    (hwiki : r.readme.getD false = true ∨ r.has_wiki.isSome = true)
    (hs : 0 ≤ r.stargazers_count.getD 0) (hf : 0 ≤ r.forks_count.getD 0)
    (hz : 0 ≤ r.size.getD 0) :
    ∃ k, calculate_repo_score p now r u = .ok k ∧ 100 ≤ k := by
  unfold nameMatches at hm
  cases hn : r.name with
  | none => rw [hn] at hm; simp at hm
  | some n =>
    rw [hn] at hm
    simp only [beq_iff_eq] at hm
    have hbase : (if pyLower n = pyLower u then (100 : Int) else 0) = 100 :=
      if_pos hm
    have hd := description_bonus_nonneg r
    have hr := recency_bonus_nonneg p now r
    have hst := stars_bonus_nonneg r hs
    have hfk := forks_bonus_nonneg r hf
    have hsz := size_bonus_nonneg r hz
    rcases hwiki with hrd | hwk
    · refine ⟨_, calc_eq_of_readme p now r u n hn hrd, ?_⟩
      rw [hbase]; linarith
    · obtain ⟨w, hw2⟩ := Option.isSome_iff_exists.mp hwk
      refine ⟨_, calc_eq_of_keys p now r u n w hn hw2, ?_⟩
      rw [hbase]
      have hwb : (0 : Int) ≤
          (if r.readme.getD false then 50 else if w then 50 else 0) := by
        split
        · norm_num
        · split <;> norm_num
      linarith

theorem score_of_plain_le (p : String → Option Int) (now : Int) (r : Repo)
    (u : String) (hm : nameMatches r u = false)
    (hname : r.name.isSome = true) (hrd : r.readme.getD false = false)
    (hwk : r.has_wiki = some false) (hdesc : description_bonus r = 0)
    (hpush : r.pushed_at = none) :
    ∃ k, calculate_repo_score p now r u = .ok k ∧ k ≤ 95 := by
  obtain ⟨n, hn⟩ := Option.isSome_iff_exists.mp hname
  unfold nameMatches at hm
  rw [hn] at hm
  simp only [beq_eq_false_iff_ne, ne_eq] at hm
  have hbase : (if pyLower n = pyLower u then (100 : Int) else 0) = 0 :=
    if_neg hm
  refine ⟨_, calc_eq_of_keys p now r u n false hn hwk, ?_⟩
  rw [hbase, hrd, hdesc, recency_bonus_of_no_push p now r hpush]
  have hst : stars_bonus r ≤ 50 := min_le_right _ _
  have hfk : forks_bonus r ≤ 25 := min_le_right _ _
  have hsz : size_bonus r ≤ 20 := min_le_right _ _
  simp only [Bool.false_eq_true, if_false]
  linarith

theorem scoreList_ok (p : String → Option Int) (now : Int) (u : String)
    (l : List Repo)
    (h : ∀ r ∈ l, ∃ k, calculate_repo_score p now r u = .ok k) :
    ∃ sl, scoreList p now u l = .ok sl ∧ sl.map Prod.snd = l ∧
      ∀ q ∈ sl, calculate_repo_score p now q.2 u = .ok q.1 := by
  induction l with
  | nil => exact ⟨[], rfl, rfl, by simp⟩
  | cons r rest ih =>
    obtain ⟨k, hk⟩ := h r (List.mem_cons_self r rest)
    obtain ⟨sl, hsl, hmap, hall⟩ :=
      ih (fun q hq => h q (List.mem_cons_of_mem r hq))
    refine ⟨(k, r) :: sl, ?_, ?_, ?_⟩
    · unfold scoreList
      rw [hk, hsl]
    · simp [hmap]
    · intro q hq
      rcases List.mem_cons.mp hq with rfl | hq2
      · exact hk
      · exact hall q hq2

theorem pickFirstMax_mem (l : List (Int × Repo)) :
    ∀ best, pickFirstMax best l = best ∨ pickFirstMax best l ∈ l := by
  induction l with
  | nil => exact fun best => Or.inl rfl
  | cons p rest ih =>
    intro best
    have hstep : pickFirstMax best (p :: rest)
        = pickFirstMax (if best.1 < p.1 then p else best) rest := rfl
    rcases ih (if best.1 < p.1 then p else best) with h | h
    · rw [hstep, h]
      by_cases hc : best.1 < p.1
      · right
        simp [hc]
      · left
        simp [hc]
    · right
      rw [hstep]
      exact List.mem_cons_of_mem _ h

theorem pickFirstMax_ge (l : List (Int × Repo)) :
    ∀ best, best.1 ≤ (pickFirstMax best l).1 ∧
      ∀ q ∈ l, q.1 ≤ (pickFirstMax best l).1 := by
  induction l with
  | nil => exact fun best => ⟨le_refl _, by simp⟩
  | cons p rest ih =>
    intro best
    have hstep : pickFirstMax best (p :: rest)
        = pickFirstMax (if best.1 < p.1 then p else best) rest := rfl
    obtain ⟨h1, h2⟩ := ih (if best.1 < p.1 then p else best)
    have hup : best.1 ≤ (if best.1 < p.1 then p else best).1 ∧
        p.1 ≤ (if best.1 < p.1 then p else best).1 := by
      by_cases hc : best.1 < p.1
      · simp only [if_pos hc]
        exact ⟨le_of_lt hc, le_refl _⟩
      · simp only [if_neg hc]
        exact ⟨le_refl _, le_of_not_lt hc⟩
    constructor
    · rw [hstep]
      exact le_trans hup.1 h1
    · intro q hq
      rw [hstep]
      rcases List.mem_cons.mp hq with rfl | hq2
      · exact le_trans hup.2 h1
      · exact h2 q hq2

/-- C7 amended: scoring (and hence `find_best_repo`) never raises
provided every item has a `name` key and either a truthy `readme` or a
`has_wiki` key; all other fields — `stargazers_count`, `forks_count`,
`size`, `description`, `pushed_at`, a falsy `readme` — may be absent and
default to zero/false/"no bonus" without raising. -/
theorem find_best_repo_total_given_wiki_key (p : String → Option Int)
    (now : Int) (repos : List Repo) (u : String)
    (h : ∀ r ∈ repos, r.name.isSome = true ∧
      (r.readme.getD false = true ∨ r.has_wiki.isSome = true)) :
    ∃ res, find_best_repo p now repos u = .ok res := by
  cases repos with
  | nil => exact ⟨none, rfl⟩
  | cons r0 rest =>
    obtain ⟨k0, hk0⟩ := calculate_repo_score_ok p now r0 u
      (h r0 (List.mem_cons_self r0 rest)).1
      (h r0 (List.mem_cons_self r0 rest)).2
    obtain ⟨sl, hsl, -, -⟩ := scoreList_ok p now u rest
      (fun r hr => calculate_repo_score_ok p now r u
        (h r (List.mem_cons_of_mem r0 hr)).1
        (h r (List.mem_cons_of_mem r0 hr)).2)
    refine ⟨some (pickFirstMax (k0, r0) sl).2, ?_⟩
    simp only [find_best_repo]
    rw [hk0, hsl]

/-- Witness for the amended C7 statement: a single repository missing
every optional field except `has_wiki` is scored without raising. -/
theorem find_best_repo_total_given_wiki_key_witness :
    ∃ res, find_best_repo (fun _ => none) 0
      [{ name := some "a", has_wiki := some false }] "b" = .ok res :=
  find_best_repo_total_given_wiki_key (fun _ => none) 0
    [{ name := some "a", has_wiki := some false }] "b" (by decide)

/-- C8 amended: a name-matching repository is returned only when every
non-matching rival draws its score from stars, forks and size alone
(no wiki/readme, description or recency bonus) — those components cap at
50 + 25 + 20 = 95, strictly below the 100 name bonus.  In general, as
the counterexample shows, a rival's other attributes can overtake the
name match. -/
theorem find_best_repo_match_beats_plain_rivals (p : String → Option Int)
    (now : Int) (repos : List Repo) (u : String)
    (hok : ∀ r ∈ repos, r.name.isSome = true ∧ r.has_wiki.isSome = true)
    (hnn : ∀ r ∈ repos, 0 ≤ r.stargazers_count.getD 0 ∧
      0 ≤ r.forks_count.getD 0 ∧ 0 ≤ r.size.getD 0)
    (hmatch : ∃ r ∈ repos, nameMatches r u = true)
    (hplain : ∀ r ∈ repos, nameMatches r u = false →
      r.readme.getD false = false ∧ r.has_wiki = some false ∧
      description_bonus r = 0 ∧ r.pushed_at = none) :
    ∃ r, find_best_repo p now repos u = .ok (some r) ∧
      nameMatches r u = true := by
  cases repos with
  | nil =>
    obtain ⟨r, hr, -⟩ := hmatch
    exact absurd hr (List.not_mem_nil r)
  | cons r0 rest =>
    have hscored : ∀ r ∈ r0 :: rest, ∃ k,
        calculate_repo_score p now r u = .ok k :=
      fun r hr => calculate_repo_score_ok p now r u (hok r hr).1
        (Or.inr (hok r hr).2)
    obtain ⟨k0, hk0⟩ := hscored r0 (List.mem_cons_self r0 rest)
    obtain ⟨sl, hsl, hmap, hall⟩ := scoreList_ok p now u rest
      (fun r hr => hscored r (List.mem_cons_of_mem r0 hr))
    have hres : find_best_repo p now (r0 :: rest) u
        = .ok (some (pickFirstMax (k0, r0) sl).2) := by
      simp only [find_best_repo]
      rw [hk0, hsl]
    set best := pickFirstMax (k0, r0) sl with hbest
    -- the chosen pair is either the head or a scored member of the tail
    have hbmem : best.2 ∈ r0 :: rest ∧
        calculate_repo_score p now best.2 u = .ok best.1 := by
      rcases pickFirstMax_mem sl (k0, r0) with h | h
      · rw [← hbest] at h
        rw [h]
        exact ⟨List.mem_cons_self r0 rest, hk0⟩
      · rw [← hbest] at h
        refine ⟨List.mem_cons_of_mem r0 ?_, hall best h⟩
        rw [← hmap]
        exact List.mem_map_of_mem Prod.snd h
    -- the chosen score dominates the score of the matching repository
    obtain ⟨rm, hrm, hrmm⟩ := hmatch
    obtain ⟨km, hkm, hkm100⟩ := score_of_match_ge p now rm u hrmm
      (Or.inr (hok rm hrm).2) (hnn rm hrm).1 (hnn rm hrm).2.1
      (hnn rm hrm).2.2
    have h100 : 100 ≤ best.1 := by
      obtain ⟨hge0, hgel⟩ := pickFirstMax_ge sl (k0, r0)
      rw [← hbest] at hge0 hgel
      rcases List.mem_cons.mp hrm with rfl | hrm2
      · have : km = k0 := by
          rw [hkm] at hk0
          exact (Except.ok.injEq _ _).mp hk0.symm |>.symm ▸ rfl
        have hke : k0 = km := by
          rw [hkm] at hk0
          cases hk0
          rfl
        calc (100 : Int) ≤ km := hkm100
          _ = k0 := hke.symm
          _ ≤ best.1 := hge0
      · obtain ⟨q, hq, hq2⟩ := List.mem_map.mp (hmap ▸ hrm2)
        have hqs := hall q hq
        rw [hq2, hkm] at hqs
        have hkq : q.1 = km := by
          cases hqs
          rfl
        calc (100 : Int) ≤ km := hkm100
          _ = q.1 := hkq.symm
          _ ≤ best.1 := hgel q hq
    -- a non-matching chosen repository would be capped at 95
    cases hmb : nameMatches best.2 u with
    | true => exact ⟨best.2, hres, hmb⟩
    | false =>
      obtain ⟨hrd, hwk, hdesc, hpush⟩ := hplain best.2 hbmem.1 hmb
      obtain ⟨kb, hkb, hkb95⟩ := score_of_plain_le p now best.2 u hmb
        (hok best.2 hbmem.1).1 hrd hwk hdesc hpush
      rw [hbmem.2] at hkb
      have : best.1 = kb := by
        cases hkb
        rfl
      omega

/-- Witness for the amended C8 statement: a matching repository alone in
the list is returned. -/
theorem find_best_repo_match_beats_plain_rivals_witness :
    ∃ r, find_best_repo (fun _ => none) 0
        [{ name := some "jojo", has_wiki := some false }] "JoJo"
      = .ok (some r) ∧
      nameMatches r "JoJo" = true :=
  find_best_repo_match_beats_plain_rivals (fun _ => none) 0
    [{ name := some "jojo", has_wiki := some false }] "JoJo"
    (by decide) (by decide) (by decide) (by decide)

/-- An abstract event timestamp: `monthKey` is what
`event_date.strftime('%Y-%m')` yields and `t` places the date on an
integer day timeline with the datetime ordering and `.days`
subtraction. -/
structure DateT where
  monthKey : String
  t : Int
deriving DecidableEq

/-- An event as `analyze_activity` reads it: `created_at` and `type` may
be absent (subscripting raises the caught `KeyError`).  The `repo`
field: `none` is an absent or falsy `repo` entry (counted under
"unknown"), `some none` a truthy `repo` object without a `name` key
(subscripting raises the caught `KeyError`), `some (some nm)` a repo
object named `nm`. -/
structure Event where
  created_at : Option String := none
  type : Option String := none
  repo : Option (Option String) := none
deriving DecidableEq

/-- The result record of `analyze_activity` (BRUH.py lines 338-347);
the `defaultdict` counters become association lists in first-seen key
order. -/
structure Activity where
  total_events : Nat
  monthly_activity : List (String × Nat)
  activity_by_type : List (String × Nat)
  repo_activity : List (String × Nat)
  last_activity : Option DateT
  first_activity : Option DateT
  activity_period_days : Int
  daily_avg_events : ℚ
deriving DecidableEq

/-- `defaultdict(int)` increment: bump the existing entry or append a
fresh one with count 1. -/
def bumpCount : List (String × Nat) → String → List (String × Nat)
  | [], k => [(k, 1)]
  | (k1, c) :: rest, k =>
    if k1 = k then (k1, c + 1) :: rest else (k1, c) :: bumpCount rest k

/-- The accumulator of the `for event in events` loop (BRUH.py lines
307-332). -/
structure AggState where
  monthly : List (String × Nat) := []
  byType : List (String × Nat) := []
  byRepo : List (String × Nat) := []
  last : Option DateT := none
  first : Option DateT := none
deriving DecidableEq

/-- One iteration of the loop.  The `try` block runs top to bottom and a
`KeyError`/`ValueError` anywhere jumps to `continue`, keeping whatever
was already incremented: a missing or unparseable `created_at` skips the
event entirely, a missing `type` keeps the monthly increment, a truthy
`repo` without `name` keeps the monthly and type increments. -/
def analyze_step (parse : String → Option DateT) (st : AggState)
    (e : Event) : AggState :=
  match e.created_at with
  | none => st
  | some s =>
    match parse s with
    | none => st
    | some dt =>
      let st1 := { st with monthly := bumpCount st.monthly dt.monthKey }
      match e.type with
      | none => st1
      | some ty =>
        let st2 := { st1 with byType := bumpCount st1.byType ty }
        match e.repo with
        | some none => st2
        | r =>
          let repoName := match r with
            | some (some nm) => nm
            | _ => "unknown"
          let st3 := { st2 with byRepo := bumpCount st2.byRepo repoName }
          { st3 with
            last := match st3.last with
              | none => some dt
              | some l => if l.t < dt.t then some dt else some l
            first := match st3.first with
              | none => some dt
              | some f => if dt.t < f.t then some dt else some f }

/-- `GitHubUserProcessor.analyze_activity` (BRUH.py lines 302-347);
`parse` abstracts `datetime.fromisoformat(... .replace('Z', '+00:00'))`
with `none` for the caught `ValueError`.  Note `total_events` is
`len(events)` — the raw input length — and `daily_avg_events` divides
that raw total by the active period. -/
def analyze_activity (parse : String → Option DateT)
    (events : List Event) : Activity :=
  if events.isEmpty then
    { total_events := 0, monthly_activity := [], activity_by_type := [],
      repo_activity := [], last_activity := none, first_activity := none,
      activity_period_days := 0, daily_avg_events := 0 }
  else
    let st := events.foldl (analyze_step parse) {}
    let total := events.length
    let period : Int :=
      match st.first, st.last with
      | some f, some l => (l.t - f.t) + 1
      | _, _ => 0
    { total_events := total, monthly_activity := st.monthly,
      activity_by_type := st.byType, repo_activity := st.byRepo,
      last_activity := st.last, first_activity := st.first,
      activity_period_days := period,
      daily_avg_events :=
        if 0 < period then (total : ℚ) / (period : ℚ) else 0 }

/-- A concrete stand-in for the timestamp parser: it recognises one
string, placed in January 2024 at day 10. -/
def parseC9 : String → Option DateT :=
  fun s => if s = "d1" then some ⟨"2024-01", 10⟩ else none

/-- A fully well-formed event. -/
def eGood : Event :=
  { created_at := some "d1", type := some "PushEvent" }

/-- An event without a `created_at` field. -/
def eBadTs : Event := {}

/-- An event with a parseable timestamp but no `type` field. -/
def eNoType : Event := { created_at := some "d1" }

/-- C9 counterexample: `total_events = len(events)` counts the event
with the unparseable timestamp (and `daily_avg_events` divides that
inflated total), and an event whose timestamp parses but which lacks
`type` increments `monthly_activity` before its `KeyError` is caught —
malformed events do affect the computed counts. -/
theorem analyze_activity_counts_malformed :
    (analyze_activity parseC9 [eGood, eBadTs]).total_events = 2 ∧
    (analyze_activity parseC9 [eGood]).total_events = 1 ∧
    (analyze_activity parseC9 [eGood, eBadTs]).daily_avg_events = 2 ∧
    (analyze_activity parseC9 [eGood, eNoType]).monthly_activity
      = [("2024-01", 2)] ∧
    (analyze_activity parseC9 [eGood, eNoType]).activity_by_type
      = [("PushEvent", 1)] := by
  refine ⟨rfl, rfl, ?_, rfl, rfl⟩
  norm_num [analyze_activity, analyze_step, parseC9, eGood, eBadTs]

/-- Is the event's timestamp missing or unparseable? -/
def badTimestamp (parse : String → Option DateT) (e : Event) : Bool :=
  match e.created_at with
  | none => true
  | some s => (parse s).isNone

theorem analyze_step_skips_bad (parse : String → Option DateT)
    (st : AggState) (e : Event) (h : badTimestamp parse e = true) :
    analyze_step parse st e = st := by
  unfold badTimestamp at h
  unfold analyze_step
  cases hc : e.created_at with
  | none => rfl
  | some s =>
    rw [hc] at h
    dsimp only at h ⊢
    cases hp : parse s with
    | none => rfl
    | some d =>
      rw [hp] at h
      simp at h

/-- C9 amended: an event whose timestamp is missing or unparseable is
skipped by the per-month, per-type and per-repository tallies and by the
first/last timestamps and the active period, but `total_events` is the
raw input length — such events inflate it and, through it,
`daily_avg_events`.  (Events failing a later field access are only
partially skipped, as the counterexample shows.) -/
theorem analyze_activity_bad_ts_partial (parse : String → Option DateT)
    (l1 l2 : List Event) (e : Event)
    (h : badTimestamp parse e = true) :
    (analyze_activity parse (l1 ++ e :: l2)).total_events
        = (l1 ++ l2).length + 1 ∧
    (analyze_activity parse (l1 ++ e :: l2)).monthly_activity
        = (analyze_activity parse (l1 ++ l2)).monthly_activity ∧
    (analyze_activity parse (l1 ++ e :: l2)).activity_by_type
        = (analyze_activity parse (l1 ++ l2)).activity_by_type ∧
    (analyze_activity parse (l1 ++ e :: l2)).repo_activity
        = (analyze_activity parse (l1 ++ l2)).repo_activity ∧
    (analyze_activity parse (l1 ++ e :: l2)).first_activity
        = (analyze_activity parse (l1 ++ l2)).first_activity ∧
    (analyze_activity parse (l1 ++ e :: l2)).last_activity
        = (analyze_activity parse (l1 ++ l2)).last_activity ∧
    (analyze_activity parse (l1 ++ e :: l2)).activity_period_days
        = (analyze_activity parse (l1 ++ l2)).activity_period_days := by
  have hfold : (l1 ++ e :: l2).foldl (analyze_step parse) {}
      = (l1 ++ l2).foldl (analyze_step parse) {} := by
    rw [List.foldl_append, List.foldl_append, List.foldl_cons,
      analyze_step_skips_bad parse _ e h]
  have hne : (l1 ++ e :: l2).isEmpty = false := by
    cases l1 <;> rfl
  cases hl : (l1 ++ l2).isEmpty with
  | true =>
    have hnil : l1 ++ l2 = [] := List.isEmpty_iff.mp hl
    have h1 : l1 = [] := (List.append_eq_nil.mp hnil).1
    have h2 : l2 = [] := (List.append_eq_nil.mp hnil).2
    subst h1
    subst h2
    simp only [List.nil_append, analyze_activity, List.isEmpty_cons,
      Bool.false_eq_true, if_false, List.isEmpty_nil, if_true,
      List.foldl_cons, List.foldl_nil,
      analyze_step_skips_bad parse _ e h]
    norm_num
  | false =>
    unfold analyze_activity
    rw [hne, hl, hfold]
    refine ⟨?_, rfl, rfl, rfl, rfl, rfl, rfl⟩
    show (l1 ++ e :: l2).length = (l1 ++ l2).length + 1
    simp only [List.length_append, List.length_cons]
    omega

/-- Witness for the amended C9 statement: one good event followed by one
event without `created_at`. -/
theorem analyze_activity_bad_ts_partial_witness :
    (analyze_activity parseC9 [eGood, eBadTs]).total_events
        = [eGood].length + 1 ∧
    (analyze_activity parseC9 [eGood, eBadTs]).monthly_activity
        = (analyze_activity parseC9 [eGood]).monthly_activity ∧
    (analyze_activity parseC9 [eGood, eBadTs]).activity_by_type
        = (analyze_activity parseC9 [eGood]).activity_by_type ∧
    (analyze_activity parseC9 [eGood, eBadTs]).repo_activity
        = (analyze_activity parseC9 [eGood]).repo_activity ∧
    (analyze_activity parseC9 [eGood, eBadTs]).first_activity
        = (analyze_activity parseC9 [eGood]).first_activity ∧
    (analyze_activity parseC9 [eGood, eBadTs]).last_activity
        = (analyze_activity parseC9 [eGood]).last_activity ∧
    (analyze_activity parseC9 [eGood, eBadTs]).activity_period_days
        = (analyze_activity parseC9 [eGood]).activity_period_days :=
  analyze_activity_bad_ts_partial parseC9 [eGood] [] eBadTs (by decide)

/-- State of a `GitHubUserProcessor`: `cache` is `self._cache`, `memo`
is the table of the `@lru_cache(maxsize=128)` wrapper on
`get_user_info` (most recently used first), `oracle` models
`self.api.make_request` on the `/users/<name>` endpoint (the transport
internals are embedded above as `make_request`), and `apiCalls` counts
how many times the transport was actually invoked. -/
structure ProcState where
  cache : List (String × Json)
  memo : List (String × Option Json)
  oracle : String → Option Json
  apiCalls : Nat

/-- `GitHubUserProcessor.clear_cache` (BRUH.py lines 179-181): empties
`self._cache` only; the `lru_cache` memo on `get_user_info` is not
touched. -/
def clear_cache (s : ProcState) : ProcState := { s with cache := [] }

/-- `lru_cache` lookup: a hit refreshes the entry's recency. -/
def lru_get (memo : List (String × Option Json)) (k : String) :
    Option (Option Json) × List (String × Option Json) :=
  match memo.lookup k with
  | some v => (some v, (k, v) :: memo.filter (fun q => q.1 != k))
  | none => (none, memo)

/-- `lru_cache` insertion with `maxsize = 128`: newest first, evicting
beyond the size bound. -/
def lru_put (memo : List (String × Option Json)) (k : String)
    (v : Option Json) : List (String × Option Json) :=
  ((k, v) :: memo.filter (fun q => q.1 != k)).take 128

/-- `GitHubUserProcessor.get_user_info` (BRUH.py lines 193-198): an
`@lru_cache(maxsize=128)` memo layered in front of
`_get_cached_or_fetch` with key `"user_" + username`; the fetch function
is `self.api.make_request(f"/users/...")`, whose result the oracle
supplies and whose invocation bumps `apiCalls`. -/
def get_user_info (s : ProcState) (username : String) :
    Option Json × ProcState :=
  match lru_get s.memo username with
  | (some r, memo2) => (r, { s with memo := memo2 })
  | (none, _) =>
    let res := get_cached_or_fetch s.cache ("user_" ++ username)
      (s.oracle username)
    (res.1,
      { cache := res.2.1
        memo := lru_put s.memo username res.1
        oracle := s.oracle
        apiCalls := s.apiCalls + (if res.2.2 then 1 else 0) })

theorem lru_get_hit (memo : List (String × Option Json)) (k : String)
    (r : Option Json) (h : memo.lookup k = some r) :
    lru_get memo k = (some r, (k, r) :: memo.filter (fun q => q.1 != k)) := by
  unfold lru_get
  rw [h]

theorem get_user_info_of_memo_hit (s : ProcState) (u : String)
    (r : Option Json) (h : s.memo.lookup u = some r) :
    (get_user_info s u).1 = r ∧
    (get_user_info s u).2.apiCalls = s.apiCalls ∧
    (get_user_info s u).2.memo.lookup u = some r := by
  unfold get_user_info
  rw [lru_get_hit s.memo u r h]
  refine ⟨rfl, rfl, ?_⟩
  simp [List.lookup]

theorem get_user_info_memoizes (s : ProcState) (u : String) :
    (get_user_info s u).2.memo.lookup u = some ((get_user_info s u).1) := by
  unfold get_user_info
  cases hm : s.memo.lookup u with
  | some r =>
    rw [lru_get_hit s.memo u r hm]
    simp [List.lookup]
  | none =>
    have : lru_get s.memo u = (none, s.memo) := by
      unfold lru_get
      rw [hm]
    rw [this]
    dsimp only
    unfold lru_put
    have h128 : (128 : Nat) = 127 + 1 := rfl
    rw [h128, List.take_succ_cons]
    simp [List.lookup]

/-- C10: `get_user_info` is memoized by `lru_cache` in front of the
read-through cache: an immediately repeated username is answered out of
the memo — the same result, including a `None` "user not found" — with
no further transport invocation; and since `clear_cache` empties only
`self._cache`, the very same holds right after `clear_cache()`. -/
theorem get_user_info_lru_survives_clear (s : ProcState) (u : String) :
    ((get_user_info (get_user_info s u).2 u).1 = (get_user_info s u).1 ∧
     (get_user_info (get_user_info s u).2 u).2.apiCalls
        = (get_user_info s u).2.apiCalls) ∧
    ((get_user_info (clear_cache (get_user_info s u).2) u).1
        = (get_user_info s u).1 ∧
     (get_user_info (clear_cache (get_user_info s u).2) u).2.apiCalls
        = (get_user_info s u).2.apiCalls) := by
  have hm := get_user_info_memoizes s u
  have h1 := get_user_info_of_memo_hit (get_user_info s u).2 u
    (get_user_info s u).1 hm
  have hmc : (clear_cache (get_user_info s u).2).memo.lookup u
      = some ((get_user_info s u).1) := hm
  have h2 := get_user_info_of_memo_hit (clear_cache (get_user_info s u).2) u
    (get_user_info s u).1 hmc
  exact ⟨⟨h1.1, h1.2.1⟩, ⟨h2.1, h2.2.1⟩⟩

end JoJo
